import Mathlib

/-!
Verification of the snippet-targeting and build-configuration resolution
logic of the `renu` landing-page build template.

The embedded code lives in `gulp/html-utils.js` (`loadSnippetConfig`,
`matchesPattern`, `shouldApplySnippet`, `getSnippetTargetTag`,
`getSnippetPriority`, `getSnippetPosition`) and in the snippet-insertion
block of `gulp/tasks/html.js` (the `html` task).

JavaScript strings are modelled as Lean `String`s (operated on through
their character lists), JS objects used as string-keyed maps as
association lists, JS `null`/`undefined`-able values as `Option`, and a
thrown exception as `Except.error`.  `new RegExp(...)` is modelled by an
executable regular-expression engine (a fueled parser into a syntax tree
plus a Brzozowski-derivative matcher) covering the constructs reachable
from the translated glob patterns: literal characters, backslash escapes
of punctuation, `.`, the quantifiers `*` `+` `?` (with an optional lazy
`?` marker, which does not change testability), groups `(...)`, and
top-level alternation `|` with the anchor semantics of the surrounding
`^...$` that the source adds.  Constructs outside this subset (character
classes, `{n}` repetition, interior anchors, class escapes such as `\d`)
are rejected by the parser; no theorem below depends on them.
-/

/-- Abstract syntax of the modelled regular-expression subset. -/
inductive RE where
  | fail
  | eps
  | chr (c : Char)
  | dot
  | cat (r1 r2 : RE)
  | alt (r1 r2 : RE)
  | star (r : RE)
deriving Repr, DecidableEq

/-- Does the regular expression accept the empty string? -/
def RE.nullable : RE → Bool
  | .fail => false
  | .eps => true
  | .chr _ => false
  | .dot => false
  | .cat r1 r2 => r1.nullable && r2.nullable
  | .alt r1 r2 => r1.nullable || r2.nullable
  | .star _ => true

/-- JavaScript `.` (without the `s` flag) matches any character except the
four line terminators. -/
def isLineTerminator (c : Char) : Bool :=
  c == '\n' || c == '\r' || c.val == 0x2028 || c.val == 0x2029

/-- Brzozowski derivative of a regular expression by one character. -/
def RE.deriv : RE → Char → RE
  | .fail, _ => .fail
  | .eps, _ => .fail
  | .chr d, c => if d == c then .eps else .fail
  | .dot, c => if isLineTerminator c then .fail else .eps
  | .cat r1 r2, c =>
      if r1.nullable then .alt (.cat (r1.deriv c) r2) (r2.deriv c)
      else .cat (r1.deriv c) r2
  | .alt r1 r2, c => .alt (r1.deriv c) (r2.deriv c)
  | .star r, c => .cat (r.deriv c) (.star r)

/-- Full match: the whole character list is in the language. -/
def reFull (r : RE) (s : List Char) : Bool :=
  (s.foldl RE.deriv r).nullable

/-- Some prefix of the character list (possibly empty) is in the language. -/
def reFromStart (r : RE) : List Char → Bool
  | [] => r.nullable
  | c :: cs => r.nullable || reFromStart (r.deriv c) cs

/-- Some suffix of the character list (possibly empty) is in the language. -/
def reToEnd (r : RE) : List Char → Bool
  | [] => reFull r []
  | c :: cs => reFull r (c :: cs) || reToEnd r cs

/-- Some contiguous substring of the character list is in the language. -/
def reAnywhere (r : RE) : List Char → Bool
  | [] => reFromStart r []
  | c :: cs => reFromStart r (c :: cs) || reAnywhere r cs

/-- Parser modes: a regex, a concatenation run, or a single atom. -/
inductive PMode where
  | alt
  | concat
  | atom
deriving Repr, DecidableEq

/-- Characters that terminate or quantify an atom and therefore cannot
start one; encountering one where an atom is required makes the enclosing
construct fail, matching the `SyntaxError`s of JavaScript `RegExp` for
"nothing to repeat", unmatched parentheses, and the constructs this model
does not cover. -/
def atomStopChar (c : Char) : Bool :=
  c == '*' || c == '+' || c == '?' || c == ')' || c == '|' ||
  c == '^' || c == '$' || c == '[' || c == ']' || c == '{' || c == '}'

/-- Apply a quantifier character to a parsed atom. -/
def applyQuant (r : RE) (q : Char) : RE :=
  if q == '*' then .star r
  else if q == '+' then .cat r (.star r)
  else .alt r .eps

/-- After an atom, consume at most one quantifier and one lazy marker
(`*?`, `+?`, `??` test identically to their greedy forms). -/
def quantLoop (r : RE) (cs : List Char) : RE × List Char :=
  match cs with
  | q :: rest =>
      if q == '*' || q == '+' || q == '?' then
        let r2 := applyQuant r q
        match rest with
        | '?' :: rest2 => (r2, rest2)
        | _ => (r2, rest)
      else (r, cs)
  | [] => (r, cs)

/-- Fueled recursive-descent parser for the modelled regex subset.  A
single function over a mode tag replaces mutual recursion; fuel strictly
decreases at every call.  Atoms: escaped character (taken literally),
`.`, a group `( regex )`, or a plain character. -/
def parseRE : Nat → PMode → List Char → Option (RE × List Char)
  | 0, _, _ => none
  | _ + 1, .atom, [] => none
  | fuel + 1, .atom, c :: cs =>
      if c == '\\' then
        match cs with
        | d :: rest => some (.chr d, rest)
        | [] => none
      else if c == '.' then some (.dot, cs)
      else if c == '(' then
        match parseRE fuel .alt cs with
        | some (r, ')' :: rest) => some (r, rest)
        | _ => none
      else if atomStopChar c then none
      else some (.chr c, cs)
  | fuel + 1, .concat, cs =>
      match parseRE fuel .atom cs with
      | none => some (.eps, cs)
      | some (r, rest) =>
          let (r2, rest2) := quantLoop r rest
          match parseRE fuel .concat rest2 with
          | some (r3, rest3) => some (.cat r2 r3, rest3)
          | none => none
  | fuel + 1, .alt, cs =>
      match parseRE fuel .concat cs with
      | some (r, '|' :: rest) =>
          match parseRE fuel .alt rest with
          | some (r2, rest2) => some (.alt r r2, rest2)
          | none => none
      | some (r, rest) => some (r, rest)
      | none => none

/-- Split a regex string into its top-level alternation branches, fully
consuming the input; `none` models a `SyntaxError` from `new RegExp`. -/
def parseBranches : Nat → List Char → Option (List RE)
  | 0, _ => none
  | fuel + 1, cs =>
      match parseRE fuel .concat cs with
      | some (r, []) => some [r]
      | some (r, '|' :: rest) =>
          match parseBranches fuel rest with
          | some rs => some (r :: rs)
          | none => none
      | _ => none

/-- Model of `new RegExp("^" + inner + "$").test(s)`.  The added anchors
bind into the first and last top-level branches of `inner` only: with a
single branch the test is a full match; with several, the first branch is
anchored on the left only, the middle ones not at all, and the last on
the right only. -/
def middleOrLastBranch (bs : List RE) (s : List Char) : Bool :=
  match bs with
  | [] => false
  | [r] => reToEnd r s
  | r :: rest => reAnywhere r s || middleOrLastBranch rest s

/-- See `middleOrLastBranch`; entry point for the anchored test. -/
def jsAnchoredTest (bs : List RE) (s : List Char) : Bool :=
  match bs with
  | [] => false
  | [r] => reFull r s
  | r :: rest => reFromStart r s || middleOrLastBranch rest s

/-- Model of compiling `new RegExp("^" + inner + "$")`:
`none` is a thrown `SyntaxError`. -/
def jsRegexCompile (inner : List Char) : Option (List RE) :=
  parseBranches (3 * inner.length + 3) inner

/-- Model of `new RegExp("^" + inner + "$").test(s)` including compilation. -/
def jsRegexTest (inner : List Char) (s : List Char) : Option Bool :=
  match jsRegexCompile inner with
  | none => none
  | some bs => some (jsAnchoredTest bs s)

/-- `pattern.replace(/\./g, "\\.")` — escape every dot. -/
def escapeDots : List Char → List Char
  | [] => []
  | c :: cs => if c == '.' then '\\' :: '.' :: escapeDots cs else c :: escapeDots cs

/-- `.replace(/\*/g, ".*")` — expand every star to dot-star. -/
def starExpand : List Char → List Char
  | [] => []
  | c :: cs => if c == '*' then '.' :: '*' :: starExpand cs else c :: starExpand cs

/-- The source's two-pass glob-to-regex translation
(`pattern.replace(/\./g, "\\.").replace(/\*/g, ".*")`). -/
def translatePattern (p : List Char) : List Char :=
  starExpand (escapeDots p)

/-- `matchesPattern(filePath, pattern)` from `gulp/html-utils.js`:
exact equality; else, if the pattern contains `*`: a trailing `*` does a
prefix test (`pattern.slice(0, -1)`), any other placement builds
`new RegExp("^" + translated + "$")` (which can throw, modelled by
`Except.error`) and tests the path; else false. -/
def matchesPattern (filePath pattern : String) : Except Unit Bool :=
  if filePath == pattern then .ok true
  else if pattern.data.contains '*' then
    if pattern.data.getLast? == some '*' then
      .ok (pattern.data.dropLast.isPrefixOf filePath.data)
    else
      match jsRegexTest (translatePattern pattern.data) filePath.data with
      | none => .error ()
      | some b => .ok b
  else .ok false

/-- One entry of the snippet rule configuration (the value under a
snippet name in `src/snippets/config.json`); every field may be absent
in the JSON, hence `Option`.  A `priority` of `some n` models a JSON
number (the `typeof ... === "number"` check); `none` models an absent or
non-numeric field. -/
structure SnippetRule where
  applyTo : Option (List String)
  excludeFrom : Option (List String)
  priority : Option Int
  position : Option String
deriving Repr, DecidableEq

/-- The parsed rule configuration object: snippet name to rule. -/
abbrev SnippetConfig : Type := List (String × SnippetRule)

/-- State of the `config.json` resource as seen by `loadSnippetConfig`:
the file is absent (`fs.existsSync` false), reading or `JSON.parse`
throws, or parsing succeeds with a configuration. -/
inductive ConfigSource where
  | absent
  | errored
  | parsed (cfg : SnippetConfig)
deriving Repr, DecidableEq

/-- The built-in default configuration of `loadSnippetConfig`. -/
def defaultSnippetConfig : SnippetConfig :=
  [("head-snippet", ⟨some ["index.html"], some [], none, none⟩),
   ("body-snippet", ⟨some ["index.html"], some [], none, none⟩)]

/-- `loadSnippetConfig()` from `gulp/html-utils.js`: return the parsed
file when it exists and parses; on an absent file, fall through to the
default; on a read/parse exception, catch it (logging) and fall through
to the same default.  The function never returns `null` and never lets
the exception escape. -/
def loadSnippetConfig : ConfigSource → SnippetConfig
  | .absent => defaultSnippetConfig
  | .errored => defaultSnippetConfig
  | .parsed cfg => cfg

/-- `pats.some((pattern) => matchesPattern(filePath, pattern))`:
left-to-right with short-circuit at the first `true`; an exception from
`matchesPattern` aborts the whole evaluation. -/
def listSomeMatches (filePath : String) : List String → Except Unit Bool
  | [] => .ok false
  | p :: ps =>
      match matchesPattern filePath p with
      | .error e => .error e
      | .ok true => .ok true
      | .ok false => listSomeMatches filePath ps

/-- `shouldApplySnippet(snippetName, filePath, config)` from
`gulp/html-utils.js`: false on a null config or unknown snippet;
false when the exclusion list is present and some entry matches;
otherwise true iff the apply list is present and contains `"all"` or
some entry matches. -/
def shouldApplySnippet (snippetName filePath : String)
    (config : Option SnippetConfig) : Except Unit Bool :=
  match config with
  | none => .ok false
  | some cfg =>
    match cfg.lookup snippetName with
    | none => .ok false
    | some rule =>
      match (match rule.excludeFrom with
             | none => Except.ok false
             | some pats => listSomeMatches filePath pats) with
      | .error e => .error e
      | .ok true => .ok false
      | .ok false =>
        match rule.applyTo with
        | none => .ok false
        | some pats =>
          if pats.contains "all" then .ok true
          else listSomeMatches filePath pats

/-- JS `s.startsWith(pre)`, computed on the character lists. -/
def strStartsWith (s pre : String) : Bool :=
  pre.data.isPrefixOf s.data

/-- `getSnippetTargetTag(snippetName)`: zone from the name prefix,
defaulting to `"body"`. -/
def getSnippetTargetTag (snippetName : String) : String :=
  if strStartsWith snippetName "head-" then "head"
  else if strStartsWith snippetName "body-" then "body"
  else "body"

/-- `getSnippetPriority(snippetName, config)`: the rule's numeric
`priority`, defaulting to 0. -/
def getSnippetPriority (snippetName : String)
    (config : Option SnippetConfig) : Int :=
  match config with
  | some cfg =>
      match cfg.lookup snippetName with
      | some rule =>
          match rule.priority with
          | some n => n
          | none => 0
      | none => 0
  | none => 0

/-- `getSnippetPosition(snippetName, config)`: `"append"` only when the
rule exists and its `position` field is exactly `"append"`; otherwise
`"prepend"`. -/
def getSnippetPosition (snippetName : String)
    (config : Option SnippetConfig) : String :=
  match config with
  | some cfg =>
      match cfg.lookup snippetName with
      | some rule =>
          if rule.position == some "append" then "append" else "prepend"
      | none => "prepend"
  | none => "prepend"

/-- One element of the `headSnippets` / `bodySnippets` arrays built in the
`html` task: `{ name, content, priority, position }`. -/
structure SnippetItem where
  name : String
  content : String
  priority : Int
  position : String
deriving Repr, DecidableEq

/-- The gathering loop of the `html` task (`for ... of Object.entries`):
for each available snippet, in iteration order, keep it when
`shouldApplySnippet` is true, resolving priority and position from the
configuration and routing it by `getSnippetTargetTag` into the head or
body array.  An exception from `shouldApplySnippet` aborts the file's
processing. -/
def gatherSnippets (filePath : String) (config : Option SnippetConfig) :
    List (String × String) → Except Unit (List SnippetItem × List SnippetItem)
  | [] => .ok ([], [])
  | (snippetName, snippetContent) :: rest =>
      match shouldApplySnippet snippetName filePath config with
      | .error e => .error e
      | .ok apply =>
          match gatherSnippets filePath config rest with
          | .error e => .error e
          | .ok (hs, bs) =>
              if apply then
                let targetTag := getSnippetTargetTag snippetName
                let item : SnippetItem :=
                  ⟨snippetName, snippetContent,
                   getSnippetPriority snippetName config,
                   getSnippetPosition snippetName config⟩
                if targetTag == "head" then .ok (item :: hs, bs)
                else if targetTag == "body" then .ok (hs, item :: bs)
                else .ok (hs, bs)
              else .ok (hs, bs)

/-- Insert an item into a list already sorted by ascending priority,
before the first element of priority not below its own.  Folding this
over the original array from the right is a stable ascending sort, the
behaviour of `arr.sort((a, b) => a.priority - b.priority)`
(`Array.prototype.sort` is stable). -/
def sortInsert (s : SnippetItem) : List SnippetItem → List SnippetItem
  | [] => [s]
  | t :: ts => if s.priority ≤ t.priority then s :: t :: ts else t :: sortInsert s ts

/-- Stable ascending sort by `priority`; see `sortInsert`. -/
def sortByPriority (l : List SnippetItem) : List SnippetItem :=
  l.foldr sortInsert []

/-- The insertion loop of the `html` task over one zone, modelling the
zone's child list as a list of opaque content blocks: each item with
position `"append"` goes to the current end (`head.append`/`body.append`),
every other position to the current front (`.prepend`). -/
def applyZoneInsertions (items : List SnippetItem) (zone : List String) :
    List String :=
  items.foldl
    (fun z s => if s.position == "append" then z ++ [s.content] else s.content :: z)
    zone

/-- Sort one zone's applicable snippets by priority, then run the
insertion loop: lines 114-136 of `gulp/tasks/html.js` for one zone. -/
def resolveAndInsertZone (items : List SnippetItem) (zone : List String) :
    List String :=
  applyZoneInsertions (sortByPriority items) zone

/-- The document as far as snippet insertion observes it: the child
blocks of `<head>` and of `<body>`. -/
structure Doc where
  head : List String
  body : List String
deriving Repr, DecidableEq

/-- The per-file snippet block of the `html` task (lines 86-139): when
`buildMode.insertSnippets` is set, gather the applicable snippets, sort
each zone by priority and insert; otherwise the document is untouched. -/
def snippetPhase (insertSnippets : Bool) (snippets : List (String × String))
    (snippetConfig : Option SnippetConfig) (filePath : String) (doc : Doc) :
    Except Unit Doc :=
  if insertSnippets then
    match gatherSnippets filePath snippetConfig snippets with
    | .error e => .error e
    | .ok (headSnippets, bodySnippets) =>
        .ok ⟨resolveAndInsertZone headSnippets doc.head,
             resolveAndInsertZone bodySnippets doc.body⟩
  else .ok doc

/-- Lines 53-55 plus the per-file block of the `html` task: snippets are
loaded only when `insertSnippets` is set (`loadAllSnippets()` vs `{}`),
the configuration likewise (`loadSnippetConfig()` vs `null`), and the
file then runs through `snippetPhase`.  `available` stands for the
snippet files present on disk, `cfgSrc` for the state of `config.json`. -/
def htmlTaskSnippetStep (insertSnippets : Bool)
    (available : List (String × String)) (cfgSrc : ConfigSource)
    (filePath : String) (doc : Doc) : Except Unit Doc :=
  snippetPhase insertSnippets
    (if insertSnippets then available else [])
    (if insertSnippets then some (loadSnippetConfig cfgSrc) else none)
    filePath doc

/-- The regex metacharacters of the claimed translation: everything a
standard escape-regexp helper quotes, minus `*` which the claim keeps. -/
def regexMetaChar (c : Char) : Bool :=
  c == '.' || c == '+' || c == '?' || c == '^' || c == '$' ||
  c == '(' || c == ')' || c == '[' || c == ']' || c == '{' ||
  c == '}' || c == '|' || c == '\\'

/-- Translation step of the claimed matcher: backslash-escape every regex
metacharacter except `*`. -/
def escapeAllMeta : List Char → List Char
  | [] => []
  | c :: cs =>
      if regexMetaChar c then '\\' :: c :: escapeAllMeta cs
      else c :: escapeAllMeta cs

/-- The general-wildcard matcher exactly as claim C2 states it: compile
the pattern by literal-escaping all regex metacharacters except `*`,
replace `*` with `.*`, anchor at both ends, and test the full candidate
path.  (Escaping everything leaves no invalid construct, so compilation
cannot fail; the `getD` default is never reached.) -/
def matchesPatternClaimC2 (filePath pattern : String) : Option Bool :=
  jsRegexTest (starExpand (escapeAllMeta pattern.data)) filePath.data

/-- Single-pass version of the translation the code actually performs:
escape only `.`, expand `*` to `.*`, leave every other character (and its
regex meaning) alone. -/
def translateOneEscapingDot : List Char → List Char
  | [] => []
  | c :: cs =>
      if c == '.' then '\\' :: '.' :: translateOneEscapingDot cs
      else if c == '*' then '.' :: '*' :: translateOneEscapingDot cs
      else c :: translateOneEscapingDot cs

/-- The matcher as the amended claim C2 describes it: exact match first;
otherwise compile the pattern escaping only `.`, expand `*` to `.*`,
anchor at both ends and test the full path, propagating a compile
failure as an error. -/
def matchesPatternAmendedC2 (filePath pattern : String) : Except Unit Bool :=
  if filePath == pattern then .ok true
  else
    match jsRegexTest (translateOneEscapingDot pattern.data) filePath.data with
    | none => .error ()
    | some b => .ok b

/-! ### Helper lemmas -/

/-- A pattern without `*` matches exactly the path equal to it. -/
lemma matchesPattern_of_no_star (filePath pattern : String)
    (h : pattern.data.contains '*' = false) :
    matchesPattern filePath pattern = .ok (filePath == pattern) := by
  have h' : ¬ ('*' ∈ pattern.data) := by simpa using h
  unfold matchesPattern
  cases hfp : filePath == pattern <;> simp [hfp, h']

/-- Evaluating the default configuration's single `applyTo` entry. -/
lemma listSomeMatches_indexHtml (filePath : String) :
    listSomeMatches filePath ["index.html"] = .ok (filePath == "index.html") := by
  have h := matchesPattern_of_no_star filePath "index.html" (by decide)
  unfold listSomeMatches
  rw [h]
  cases hfp : filePath == "index.html" <;> simp [hfp, listSomeMatches]

/-- `shouldApplySnippet` on the built-in default configuration applies
exactly the two default snippets to exactly `index.html`. -/
lemma shouldApply_defaultConfig (snippetName filePath : String) :
    shouldApplySnippet snippetName filePath (some defaultSnippetConfig) =
      .ok (((snippetName == "head-snippet") || (snippetName == "body-snippet"))
            && (filePath == "index.html")) := by
  by_cases h1 : snippetName = "head-snippet"
  · subst h1
    have hred : shouldApplySnippet "head-snippet" filePath (some defaultSnippetConfig) =
        listSomeMatches filePath ["index.html"] := rfl
    rw [hred, listSomeMatches_indexHtml]
    simp
  · by_cases h2 : snippetName = "body-snippet"
    · subst h2
      have hred : shouldApplySnippet "body-snippet" filePath (some defaultSnippetConfig) =
          listSomeMatches filePath ["index.html"] := rfl
      rw [hred, listSomeMatches_indexHtml]
      simp
    · have e1 : (snippetName == "head-snippet") = false := by simpa using h1
      have e2 : (snippetName == "body-snippet") = false := by simpa using h2
      have hred : shouldApplySnippet snippetName filePath (some defaultSnippetConfig) =
          .ok false := by
        unfold shouldApplySnippet defaultSnippetConfig
        simp [List.lookup, e1, e2]
      rw [hred]
      simp [e1, e2]

/-- If some pattern in the list matches and every pattern evaluates
without an exception, the short-circuit disjunction returns true. -/
lemma listSomeMatches_ok_true (filePath : String) (pats : List String)
    (hex : ∃ p ∈ pats, matchesPattern filePath p = .ok true)
    (htot : ∀ p ∈ pats, ∃ b, matchesPattern filePath p = .ok b) :
    listSomeMatches filePath pats = .ok true := by
  induction pats with
  | nil => simp at hex
  | cons q qs ih =>
      obtain ⟨b, hb⟩ := htot q (by simp)
      cases b
      · unfold listSomeMatches
        rw [hb]
        apply ih
        · obtain ⟨p, hp, hpt⟩ := hex
          rcases List.mem_cons.mp hp with hpq | hpqs
          · rw [hpq] at hpt
            rw [hpt] at hb
            exact absurd hb (by simp)
          · exact ⟨p, hpqs, hpt⟩
        · exact fun p hp => htot p (List.mem_cons_of_mem q hp)
      · unfold listSomeMatches
        rw [hb]

/-- If every pattern in the list evaluates without an exception, the
short-circuit disjunction returns some boolean. -/
lemma listSomeMatches_total (filePath : String) (pats : List String)
    (htot : ∀ p ∈ pats, ∃ b, matchesPattern filePath p = .ok b) :
    ∃ b, listSomeMatches filePath pats = .ok b := by
  induction pats with
  | nil => exact ⟨false, rfl⟩
  | cons q qs ih =>
      obtain ⟨b, hb⟩ := htot q (by simp)
      cases b
      · obtain ⟨b2, hb2⟩ := ih (fun p hp => htot p (List.mem_cons_of_mem q hp))
        refine ⟨b2, ?_⟩
        unfold listSomeMatches
        rw [hb, hb2]
      · refine ⟨true, ?_⟩
        unfold listSomeMatches
        rw [hb]

/-- The single-pass only-dot-escaping translation equals the source's
two-pass `replace` composition. -/
lemma translateOneEscapingDot_eq (l : List Char) :
    translateOneEscapingDot l = translatePattern l := by
  unfold translatePattern
  induction l with
  | nil => rfl
  | cons c cs ih =>
      by_cases hc : c = '.'
      · subst hc
        simp [translateOneEscapingDot, escapeDots, starExpand, ih]
      · by_cases hs : c = '*'
        · subst hs
          simp [translateOneEscapingDot, escapeDots, starExpand, ih]
        · simp [translateOneEscapingDot, escapeDots, starExpand, hc, hs, ih]

/-! ### Claim theorems -/

/-- C1 (counterexample): with the rule-config resource absent,
`loadSnippetConfig` does NOT return an empty mapping, and the
`shouldApplySnippet` call for the default snippet `head-snippet` on
`index.html` made with that result returns true, not false. -/
theorem c1_counterexample :
    loadSnippetConfig ConfigSource.absent ≠ ([] : SnippetConfig) ∧
    shouldApplySnippet "head-snippet" "index.html"
      (some (loadSnippetConfig ConfigSource.absent)) = .ok true := by
  exact ⟨by decide, rfl⟩

/-- C1 (amended): when the rule configuration resource is absent,
`loadSnippetConfig` returns the built-in default mapping (head-snippet
and body-snippet applying to `["index.html"]` with empty exclusions),
and a `shouldApplySnippet` call made with that result returns true
exactly for the snippet names `head-snippet` and `body-snippet` on the
file path `index.html`, and false for every other name or path. -/
theorem c1_absent_config_default :
    loadSnippetConfig ConfigSource.absent = defaultSnippetConfig ∧
    ∀ (snippetName filePath : String),
      shouldApplySnippet snippetName filePath
          (some (loadSnippetConfig ConfigSource.absent)) =
        .ok (((snippetName == "head-snippet") || (snippetName == "body-snippet"))
              && (filePath == "index.html")) :=
  ⟨rfl, fun snippetName filePath => shouldApply_defaultConfig snippetName filePath⟩

/-- C2 (counterexample): the pattern `*ab?` contains `*` other than as
its last character; the code's matcher accepts the path `xa` (because
the unescaped `?` keeps its regex meaning, making `b` optional), while
the matcher described by the claim — all metacharacters except `*`
literal-escaped — rejects it, since `xa` does not end in the literal
characters `b?`. -/
theorem c2_counterexample :
    "*ab?".data.contains '*' = true ∧
    "*ab?".data.getLast? ≠ some '*' ∧
    matchesPattern "xa" "*ab?" = .ok true ∧
    matchesPatternClaimC2 "xa" "*ab?" = some false :=
  ⟨by decide, by decide, rfl, rfl⟩

/-- C2 (amended): for every pattern that contains `*` but does not end
with it, the path matcher compiles the pattern to a regular expression
by escaping only the `.` character, replacing each `*` with `.*`,
anchoring at both ends, and returns true iff the candidate path matches
(a failed compile raising an error); regex metacharacters other than `.`
— such as `+`, `(`, `[`, `?`, `$` — keep their regex meaning instead of
being treated as literal characters. -/
theorem c2_only_dot_escaped (filePath pattern : String)
    (hstar : pattern.data.contains '*' = true)
    (hlast : (pattern.data.getLast? == some '*') = false) :
    matchesPattern filePath pattern = matchesPatternAmendedC2 filePath pattern := by
  unfold matchesPattern matchesPatternAmendedC2
  cases hfp : filePath == pattern
  · simp only [hfp, hstar, hlast]
    rw [translateOneEscapingDot_eq]
    simp
  · simp [hfp]

/-- Witness for `c2_only_dot_escaped` at a concrete input. -/
theorem c2_only_dot_escaped_witness :
    matchesPattern "xa" "*ab?" = matchesPatternAmendedC2 "xa" "*ab?" :=
  c2_only_dot_escaped "xa" "*ab?" (by decide) (by decide)

/-- C3 (counterexample): the matcher is not total: on the malformed
pattern `a(b*c` (whose wildcard translation `a(b.*c` is not a valid
regular expression) it raises an error for the candidate path `x`
instead of returning false. -/
theorem c3_counterexample :
    matchesPattern "x" "a(b*c" = .error () := rfl

/-- C3 (amended): the path matcher raises an error exactly when the
pattern is not equal to the candidate path, contains `*` somewhere other
than as its trailing character, and its wildcard translation fails to
compile as a regular expression; in every other case it returns a
boolean.  A malformed pattern therefore propagates a fault rather than
yielding false. -/
theorem c3_error_iff_bad_translation (filePath pattern : String) :
    matchesPattern filePath pattern = .error () ↔
      ((filePath == pattern) = false ∧
       pattern.data.contains '*' = true ∧
       (pattern.data.getLast? == some '*') = false ∧
       jsRegexCompile (translatePattern pattern.data) = none) := by
  unfold matchesPattern jsRegexTest
  cases hfp : filePath == pattern
  · cases hstar : pattern.data.contains '*'
    · simp [hstar]
    · cases hlast : pattern.data.getLast? == some '*'
      · cases hcomp : jsRegexCompile (translatePattern pattern.data) <;>
          simp [hstar, hlast, hcomp]
      · simp [hstar, hlast]
  · simp [hfp]

/-- C6: exclusion dominance: for every rule and file path, if the path
matches any pattern of the rule's `excludeFrom` list (and the exclusion
patterns evaluate without an exception), `shouldApplySnippet` returns
false — whatever the `applyTo` list holds, including the literal
`"all"`. -/
theorem c6_exclusion_dominates (snippetName filePath : String)
    (cfg : SnippetConfig) (rule : SnippetRule) (pats : List String)
    (hrule : cfg.lookup snippetName = some rule)
    (hexf : rule.excludeFrom = some pats)
    (hmatch : ∃ p ∈ pats, matchesPattern filePath p = .ok true)
    (htot : ∀ p ∈ pats, ∃ b, matchesPattern filePath p = .ok b) :
    shouldApplySnippet snippetName filePath (some cfg) = .ok false := by
  simp only [shouldApplySnippet, hrule, hexf,
    listSomeMatches_ok_true filePath pats hmatch htot]

/-- Witness for `c6_exclusion_dominates`: a rule whose `applyTo` is
`["all"]` but whose `excludeFrom` matches the path. -/
theorem c6_exclusion_dominates_witness :
    shouldApplySnippet "s" "index.html"
      (some [("s", ⟨some ["all"], some ["index.html"], none, none⟩)]) =
      .ok false :=
  c6_exclusion_dominates "s" "index.html" _ _ ["index.html"] rfl rfl
    ⟨"index.html", by simp, rfl⟩
    (by
      intro p hp
      rw [List.mem_singleton] at hp
      subst hp
      exact ⟨true, rfl⟩)

/-- C8: when reading or parsing the snippet config file throws, the
exception is caught and `loadSnippetConfig` returns the built-in default
mapping — head-snippet and body-snippet applying to `["index.html"]`
with empty `excludeFrom` — and, under that mapping, each of the two
default snippets applies exactly to `index.html`. -/
theorem c8_read_error_returns_default :
    loadSnippetConfig ConfigSource.errored =
      [("head-snippet", ⟨some ["index.html"], some [], none, none⟩),
       ("body-snippet", ⟨some ["index.html"], some [], none, none⟩)] ∧
    ∀ filePath : String,
      shouldApplySnippet "head-snippet" filePath
          (some (loadSnippetConfig ConfigSource.errored)) =
        .ok (filePath == "index.html") ∧
      shouldApplySnippet "body-snippet" filePath
          (some (loadSnippetConfig ConfigSource.errored)) =
        .ok (filePath == "index.html") := by
  refine ⟨rfl, fun filePath => ⟨?_, ?_⟩⟩
  · simpa using shouldApply_defaultConfig "head-snippet" filePath
  · simpa using shouldApply_defaultConfig "body-snippet" filePath

/-- C9: `getSnippetPosition` returns `"append"` iff the configuration is
non-null, the rule exists, and its `position` field is exactly the
string `"append"`; in every other case (absent field, absent rule, null
configuration, different casing, a typo) it returns `"prepend"`. -/
theorem c9_position_append_iff (snippetName : String)
    (config : Option SnippetConfig) :
    (getSnippetPosition snippetName config = "append" ↔
      ∃ cfg rule, config = some cfg ∧ cfg.lookup snippetName = some rule ∧
        rule.position = some "append") ∧
    (getSnippetPosition snippetName config = "append" ∨
     getSnippetPosition snippetName config = "prepend") := by
  unfold getSnippetPosition
  rcases config with _ | cfg
  · simp
  · rcases hl : cfg.lookup snippetName with _ | rule
    · simp [hl]
    · cases hp : rule.position == some "append"
      · have hp' : rule.position ≠ some "append" := by simpa using hp
        simp [hl, hp, hp']
      · have hp' : rule.position = some "append" := by simpa using hp
        simp [hl, hp, hp']

/-- C10: `shouldApplySnippet` is total on partially-specified rules,
when pattern matching itself does not throw: a rule without `applyTo`
yields false, and a rule without `excludeFrom` skips the exclusion check
and still returns a boolean rather than an error. -/
theorem c10_partial_rule_total (snippetName filePath : String)
    (cfg : SnippetConfig) (rule : SnippetRule)
    (hrule : cfg.lookup snippetName = some rule) :
    (rule.applyTo = none →
      (∀ pats, rule.excludeFrom = some pats →
        ∀ p ∈ pats, ∃ b, matchesPattern filePath p = .ok b) →
      shouldApplySnippet snippetName filePath (some cfg) = .ok false) ∧
    (rule.excludeFrom = none →
      (∀ pats, rule.applyTo = some pats →
        ∀ p ∈ pats, ∃ b, matchesPattern filePath p = .ok b) →
      ∃ b, shouldApplySnippet snippetName filePath (some cfg) = .ok b) := by
  constructor
  · intro happly hex
    rcases hexf : rule.excludeFrom with _ | pats
    · simp [shouldApplySnippet, hrule, hexf, happly]
    · obtain ⟨b, hb⟩ := listSomeMatches_total filePath pats (hex pats hexf)
      cases b
      · simp [shouldApplySnippet, hrule, hexf, hb, happly]
      · simp [shouldApplySnippet, hrule, hexf, hb]
  · intro hexf happ
    rcases hap : rule.applyTo with _ | pats
    · exact ⟨false, by simp [shouldApplySnippet, hrule, hexf, hap]⟩
    · cases hall : pats.contains "all"
      · obtain ⟨b, hb⟩ := listSomeMatches_total filePath pats (happ pats hap)
        have hall' : ¬ ("all" ∈ pats) := by simpa using hall
        refine ⟨b, ?_⟩
        simp only [shouldApplySnippet, hrule, hexf, hap]
        simp [hall', hb]
      · have hall' : "all" ∈ pats := by simpa using hall
        refine ⟨true, ?_⟩
        simp only [shouldApplySnippet, hrule, hexf, hap]
        simp [hall']

/-- Witness for `c10_partial_rule_total`: a rule with both fields
absent returns false without an error. -/
theorem c10_partial_rule_total_witness :
    shouldApplySnippet "s" "x" (some [("s", ⟨none, none, none, none⟩)]) =
      .ok false :=
  (c10_partial_rule_total "s" "x" [("s", ⟨none, none, none, none⟩)]
      ⟨none, none, none, none⟩ rfl).1 rfl (fun _ h => nomatch h)

/-- C4: prepend asymmetry: two snippets with position `"prepend"` and
priorities 1 and 2, both applying to the file (via `applyTo: ["all"]`)
and both targeting the head zone, end up with the priority-2 content
physically before the priority-1 content, on top of the previous head
content — each successive prepend lands at the current front. -/
theorem c4_prepend_asymmetry (n1 n2 c1 c2 filePath : String) (doc : Doc)
    (h1 : getSnippetTargetTag n1 = "head")
    (h2 : getSnippetTargetTag n2 = "head")
    (hne : (n2 == n1) = false) :
    snippetPhase true [(n1, c1), (n2, c2)]
      (some [(n1, ⟨some ["all"], none, some 1, some "prepend"⟩),
             (n2, ⟨some ["all"], none, some 2, some "prepend"⟩)])
      filePath doc = .ok ⟨c2 :: c1 :: doc.head, doc.body⟩ := by
  set cfg : SnippetConfig :=
    [(n1, ⟨some ["all"], none, some 1, some "prepend"⟩),
     (n2, ⟨some ["all"], none, some 2, some "prepend"⟩)] with hcfg
  have l1 : cfg.lookup n1 = some ⟨some ["all"], none, some 1, some "prepend"⟩ := by
    simp [hcfg, List.lookup]
  have l2 : cfg.lookup n2 = some ⟨some ["all"], none, some 2, some "prepend"⟩ := by
    simp [hcfg, List.lookup, hne]
  have s1 : shouldApplySnippet n1 filePath (some cfg) = .ok true := by
    simp [shouldApplySnippet, l1]
  have s2 : shouldApplySnippet n2 filePath (some cfg) = .ok true := by
    simp [shouldApplySnippet, l2]
  have p1 : getSnippetPriority n1 (some cfg) = 1 := by
    simp [getSnippetPriority, l1]
  have p2 : getSnippetPriority n2 (some cfg) = 2 := by
    simp [getSnippetPriority, l2]
  have q1 : getSnippetPosition n1 (some cfg) = "prepend" := by
    simp [getSnippetPosition, l1]
  have q2 : getSnippetPosition n2 (some cfg) = "prepend" := by
    simp [getSnippetPosition, l2]
  have g : gatherSnippets filePath (some cfg) [(n1, c1), (n2, c2)] =
      .ok ([⟨n1, c1, 1, "prepend"⟩, ⟨n2, c2, 2, "prepend"⟩], []) := by
    simp [gatherSnippets, s1, s2, h1, h2, p1, p2, q1, q2]
  simp [snippetPhase, g, resolveAndInsertZone, sortByPriority, sortInsert,
    applyZoneInsertions]

/-- Witness for `c4_prepend_asymmetry` at concrete snippets. -/
theorem c4_prepend_asymmetry_witness :
    snippetPhase true [("head-a", "A"), ("head-b", "B")]
      (some [("head-a", ⟨some ["all"], none, some 1, some "prepend"⟩),
             ("head-b", ⟨some ["all"], none, some 2, some "prepend"⟩)])
      "index.html" ⟨["H"], ["K"]⟩ = .ok ⟨["B", "A", "H"], ["K"]⟩ :=
  c4_prepend_asymmetry "head-a" "head-b" "A" "B" "index.html" ⟨["H"], ["K"]⟩
    rfl rfl (by decide)

/-- C5: stable priority ordering for APPEND: three snippets with
priorities 5, 1, 5 in original iteration order, all applying to the file
and targeting the body zone with position `"append"`, are resolved and
physically inserted as priority-1 first, then the first priority-5, then
the second priority-5, after the existing body content. -/
theorem c5_stable_append_order (n1 n2 n3 c1 c2 c3 filePath : String) (doc : Doc)
    (h1 : getSnippetTargetTag n1 = "body")
    (h2 : getSnippetTargetTag n2 = "body")
    (h3 : getSnippetTargetTag n3 = "body")
    (hne21 : (n2 == n1) = false)
    (hne31 : (n3 == n1) = false)
    (hne32 : (n3 == n2) = false) :
    snippetPhase true [(n1, c1), (n2, c2), (n3, c3)]
      (some [(n1, ⟨some ["all"], none, some 5, some "append"⟩),
             (n2, ⟨some ["all"], none, some 1, some "append"⟩),
             (n3, ⟨some ["all"], none, some 5, some "append"⟩)])
      filePath doc = .ok ⟨doc.head, doc.body ++ [c2, c1, c3]⟩ := by
  set cfg : SnippetConfig :=
    [(n1, ⟨some ["all"], none, some 5, some "append"⟩),
     (n2, ⟨some ["all"], none, some 1, some "append"⟩),
     (n3, ⟨some ["all"], none, some 5, some "append"⟩)] with hcfg
  have l1 : cfg.lookup n1 = some ⟨some ["all"], none, some 5, some "append"⟩ := by
    simp [hcfg, List.lookup]
  have l2 : cfg.lookup n2 = some ⟨some ["all"], none, some 1, some "append"⟩ := by
    simp [hcfg, List.lookup, hne21]
  have l3 : cfg.lookup n3 = some ⟨some ["all"], none, some 5, some "append"⟩ := by
    simp [hcfg, List.lookup, hne31, hne32]
  have s1 : shouldApplySnippet n1 filePath (some cfg) = .ok true := by
    simp [shouldApplySnippet, l1]
  have s2 : shouldApplySnippet n2 filePath (some cfg) = .ok true := by
    simp [shouldApplySnippet, l2]
  have s3 : shouldApplySnippet n3 filePath (some cfg) = .ok true := by
    simp [shouldApplySnippet, l3]
  have p1 : getSnippetPriority n1 (some cfg) = 5 := by
    simp [getSnippetPriority, l1]
  have p2 : getSnippetPriority n2 (some cfg) = 1 := by
    simp [getSnippetPriority, l2]
  have p3 : getSnippetPriority n3 (some cfg) = 5 := by
    simp [getSnippetPriority, l3]
  have q1 : getSnippetPosition n1 (some cfg) = "append" := by
    simp [getSnippetPosition, l1]
  have q2 : getSnippetPosition n2 (some cfg) = "append" := by
    simp [getSnippetPosition, l2]
  have q3 : getSnippetPosition n3 (some cfg) = "append" := by
    simp [getSnippetPosition, l3]
  have g : gatherSnippets filePath (some cfg) [(n1, c1), (n2, c2), (n3, c3)] =
      .ok ([], [⟨n1, c1, 5, "append"⟩, ⟨n2, c2, 1, "append"⟩,
                ⟨n3, c3, 5, "append"⟩]) := by
    simp [gatherSnippets, s1, s2, s3, h1, h2, h3, p1, p2, p3, q1, q2, q3]
  simp [snippetPhase, g, resolveAndInsertZone, sortByPriority, sortInsert,
    applyZoneInsertions]

/-- Witness for `c5_stable_append_order` at concrete snippets. -/
theorem c5_stable_append_order_witness :
    snippetPhase true [("body-a", "A"), ("body-b", "B"), ("body-c", "C")]
      (some [("body-a", ⟨some ["all"], none, some 5, some "append"⟩),
             ("body-b", ⟨some ["all"], none, some 1, some "append"⟩),
             ("body-c", ⟨some ["all"], none, some 5, some "append"⟩)])
      "index.html" ⟨["H"], ["K"]⟩ = .ok ⟨["H"], ["K", "B", "A", "C"]⟩ := by
  have h := c5_stable_append_order "body-a" "body-b" "body-c" "A" "B" "C"
    "index.html" ⟨["H"], ["K"]⟩ rfl rfl rfl (by decide) (by decide) (by decide)
  simpa using h

/-- C7: when the build flag `insertSnippets` is false, the `html` task
loads no snippets and no configuration (the ternaries at lines 53-55
yield `{}` and `null`), the snippet block is skipped, the document is
unchanged, and no error results — whatever the rule configuration and
snippet files contain. -/
theorem c7_snippets_disabled (available : List (String × String))
    (cfgSrc : ConfigSource) (filePath : String) (doc : Doc) :
    htmlTaskSnippetStep false available cfgSrc filePath doc = .ok doc ∧
    ∀ (snippets : List (String × String)) (config : Option SnippetConfig),
      snippetPhase false snippets config filePath doc = .ok doc :=
  ⟨rfl, fun _ _ => rfl⟩
